import Mathlib

/-!
Verification of the subtitle parsing/rendering pipeline and merge orchestrator
of `streamlit_app.py` (video & subtitle merger).

Modelling conventions:
* Python floats are modelled as exact rationals (`ℚ`); `int(x)` on the
  non-negative values arising here is `Int.floor`; Python `%` on numbers with a
  positive divisor is `pyMod a b = a - b * ⌊a / b⌋`.
* Python strings are modelled as `String` / `List Char`; `str.strip()` strips
  the ASCII whitespace characters.
* Regular expressions used by the source are implemented as explicit character
  scanners with the same matching semantics (leftmost match, greedy character
  classes, `re.match` = anchored prefix match).
* `\d` is modelled as the ASCII digits.
-/

/-- ASCII whitespace, as stripped by Python's `str.strip()` and matched by `\s`. -/
def pyIsSpace (c : Char) : Bool :=
  c = ' ' || c = '\t' || c = '\n' || c = '\r' || c = '\x0b' || c = '\x0c'

/-- Strip characters satisfying `p` from both ends of a character list
(Python `str.strip`/`str.strip('_')`). -/
def stripEnds (p : Char → Bool) (l : List Char) : List Char :=
  ((l.dropWhile p).reverse.dropWhile p).reverse

/-- Python `str.strip()` on a string. -/
def pyStrip (s : String) : String :=
  String.mk (stripEnds pyIsSpace s.data)

/-- Python slice `s[:k]`. -/
def pyTake (k : Nat) (s : String) : String :=
  String.mk (s.data.take k)

/-- Python slice `s[-k:]`. -/
def pyTakeRight (k : Nat) (s : String) : String :=
  String.mk (s.data.drop (s.data.length - k))

/-- Boolean prefix test on character lists. -/
def isPrefixOfList : List Char → List Char → Bool
  | [], _ => true
  | _ :: _, [] => false
  | a :: as, b :: bs => a = b && isPrefixOfList as bs

/-- `str.replace(pat, rep)` (all occurrences, leftmost, non-overlapping).
Written with explicit fuel so the recursion is structural; every step consumes
at least one character, so `l.length + 1` steps always suffice and the fuel
never runs out on the top-level call below. -/
def replaceAux (pat rep : List Char) : ℕ → List Char → List Char
  | 0, l => l
  | _, [] => []
  | fuel + 1, c :: rest =>
    if isPrefixOfList pat (c :: rest) then
      rep ++ replaceAux pat rep fuel ((c :: rest).drop pat.length)
    else c :: replaceAux pat rep fuel rest

/-- Python `str.replace` on strings (the patterns used by the source are all
non-empty). -/
def pyReplace (s pat rep : String) : String :=
  String.mk (replaceAux pat.data rep.data (s.data.length + 1) s.data)

/-- `str.split(c)`-style split of a character list on a predicate. -/
def splitChar (p : Char → Bool) : List Char → List (List Char)
  | [] => [[]]
  | c :: rest =>
    let r := splitChar p rest
    if p c then [] :: r
    else (c :: r.headD []) :: r.tail

/-- `sep.join(parts)` on character lists. -/
def joinWith (sep : List Char) : List (List Char) → List Char
  | [] => []
  | [x] => x
  | x :: y :: rest => x ++ sep ++ joinWith sep (y :: rest)

/-- `'\n'.join(lines)` on strings. -/
def joinLines (ls : List String) : String :=
  String.mk (joinWith ['\n'] (ls.map String.data))

/-- Python float `%` with positive divisor: `a - b * ⌊a / b⌋`. -/
def pyMod (a b : ℚ) : ℚ := a - b * ⌊a / b⌋

/-- `⌊(a : ℚ) / (b : ℚ)⌋` is natural division. -/
theorem floor_natCast_div (a b : ℕ) : ⌊(a : ℚ) / (b : ℚ)⌋ = ((a / b : ℕ) : ℤ) := by
  have h := Rat.floor_intCast_div_natCast (a : ℤ) b
  push_cast at h
  rw [h]
  omega

/-- `pyMod ((n : ℚ)/1000) k = (n % (1000 * k)) / 1000` for natural `n`, `k`. -/
theorem pyMod_div1000 (n k : ℕ) :
    pyMod ((n : ℚ) / 1000) (k : ℚ) = ((n % (1000 * k) : ℕ) : ℚ) / 1000 := by
  rcases Nat.eq_zero_or_pos k with hk | hk
  · subst hk; simp [pyMod]
  · unfold pyMod
    have h1 : (n : ℚ) / 1000 / (k : ℚ) = (n : ℚ) / ((1000 * k : ℕ) : ℚ) := by
      push_cast
      rw [div_div]
    rw [h1, floor_natCast_div]
    have hq : 1000 * k * (n / (1000 * k)) + n % (1000 * k) = n :=
      Nat.div_add_mod n (1000 * k)
    have hQ : 1000 * (k : ℚ) * ((n / (1000 * k) : ℕ) : ℚ) + ((n % (1000 * k) : ℕ) : ℚ)
        = (n : ℚ) := by
      have hc := congrArg (fun x : ℕ => (x : ℚ)) hq
      push_cast at hc
      linarith [hc]
    have hcast : (((n / (1000 * k) : ℕ) : ℤ) : ℚ) = ((n / (1000 * k) : ℕ) : ℚ) :=
      Int.cast_natCast _
    rw [hcast]
    linarith [hQ]

-- ===========================================================
-- Timestamp codec (format_ass_time / format_srt_time and the
-- parser's timestamp scanner)
-- ===========================================================

/-- Python `f"{n:02d}"` for a non-negative integer. -/
def pad2 (n : ℕ) : String :=
  if n < 10 then "0" ++ toString n else toString n

/-- Python `f"{n:03d}"` for a non-negative integer. -/
def pad3 (n : ℕ) : String :=
  if n < 100 then "0" ++ pad2 n else toString n

/-- Python `f"{z:02d}"` on a possibly negative int. -/
def padInt2 (z : ℤ) : String :=
  if z < 0 then toString z else pad2 z.toNat

/-- Python `f"{z:03d}"` on a possibly negative int. -/
def padInt3 (z : ℤ) : String :=
  if z < 0 then toString z else pad3 z.toNat

/-- `format_ass_time`: `H:MM:SS.CC` (truncating to centiseconds). -/
def format_ass_time (s : ℚ) : String :=
  let h : ℤ := ⌊s / 3600⌋
  let m : ℤ := ⌊pyMod s 3600 / 60⌋
  let sc : ℤ := ⌊pyMod s 60⌋
  let cs : ℤ := ⌊pyMod s 1 * 100⌋
  toString h ++ ":" ++ padInt2 m ++ ":" ++ padInt2 sc ++ "." ++ padInt2 cs

/-- `format_srt_time`: `HH:MM:SS,mmm` (truncating to milliseconds), under the
file's exact-rational idealization of float arithmetic.  This idealization is
NOT faithful to the source's IEEE doubles on the millisecond field: e.g. at
`s = 1.005` the source computes `int((s % 1) * 1000) = 4` (see
`floatMillisField`) while the exact model gives 5. -/
def format_srt_time (s : ℚ) : String :=
  let h : ℤ := ⌊s / 3600⌋
  let m : ℤ := ⌊pyMod s 3600 / 60⌋
  let sc : ℤ := ⌊pyMod s 60⌋
  let ms : ℤ := ⌊pyMod s 1 * 1000⌋
  padInt2 h ++ ":" ++ padInt2 m ++ ":" ++ padInt2 sc ++ "," ++ padInt3 ms

/-- Numeric value of an ASCII digit character. -/
def digitVal (c : Char) : ℕ := c.toNat - 48

/-- Scanner for `(\d{2})`: two ASCII digits. -/
def parse2 : List Char → Option (ℕ × List Char)
  | c1 :: c2 :: rest =>
    if c1.isDigit && c2.isDigit then some (digitVal c1 * 10 + digitVal c2, rest)
    else none
  | _ => none

/-- Scanner for `(\d{3})`: three ASCII digits. -/
def parse3 : List Char → Option (ℕ × List Char)
  | c1 :: c2 :: c3 :: rest =>
    if c1.isDigit && c2.isDigit && c3.isDigit then
      some (digitVal c1 * 100 + digitVal c2 * 10 + digitVal c3, rest)
    else none
  | _ => none

/-- Expect one specific character. -/
def expectChar (c : Char) : List Char → Option (List Char)
  | x :: rest => if x = c then some rest else none
  | [] => none

/-- Scanner for one timestamp `(\d{2}):(\d{2}):(\d{2})[,.](\d{3})`,
the repeated half of the parser's timestamp-range pattern. -/
def tsHalf (l : List Char) : Option ((ℕ × ℕ × ℕ × ℕ) × List Char) := do
  let (h, r) ← parse2 l
  let r ← expectChar ':' r
  let (m, r) ← parse2 r
  let r ← expectChar ':' r
  let (sc, r) ← parse2 r
  let r ← (match r with
           | x :: rest => if x = ',' || x = '.' then some rest else none
           | [] => none)
  let (ms, r) ← parse3 r
  pure ((h, m, sc, ms), r)

/-- The parser's timestamp arithmetic: `h*3600 + m*60 + s + ms/1000` as a rational. -/
def tsValue (g : ℕ × ℕ × ℕ × ℕ) : ℚ :=
  (g.1 : ℚ) * 3600 + (g.2.1 : ℚ) * 60 + (g.2.2.1 : ℚ) + (g.2.2.2 : ℚ) / 1000

/-- Anchored match of the full range pattern
`(\d{2}):(\d{2}):(\d{2})[,.](\d{3})\s*-->\s*(\d{2}):(\d{2}):(\d{2})[,.](\d{3})`
(`re.match`: trailing characters are allowed). -/
def matchTsRange (s : String) : Option ((ℕ × ℕ × ℕ × ℕ) × (ℕ × ℕ × ℕ × ℕ)) := do
  let (g1, r) ← tsHalf s.data
  let r := r.dropWhile pyIsSpace
  let r ← expectChar '-' r
  let r ← expectChar '-' r
  let r ← expectChar '>' r
  let r := r.dropWhile pyIsSpace
  let (g2, _) ← tsHalf r
  pure (g1, g2)

/-- Decoding one SubRip timestamp with the parser's scanner and arithmetic. -/
def decodeSrtTimestamp (s : String) : Option ℚ :=
  (tsHalf s.data).map fun p => tsValue p.1

/-- Round `p / q` to the nearest integer, ties to even — the IEEE-754 default
rounding used by Python float arithmetic. -/
def rneDiv (p q : ℕ) : ℕ :=
  let d := p / q
  let r := p % q
  if 2 * r < q then d
  else if 2 * r > q then d + 1
  else if d % 2 = 0 then d else d + 1

/-- `⌊log₂ n⌋` by fuelled halving (structural, so the kernel can evaluate it). -/
def log2Aux : ℕ → ℕ → ℕ
  | 0, _ => 0
  | fuel + 1, n => if n ≥ 2 then log2Aux fuel (n / 2) + 1 else 0

/-- `⌊log₂ n⌋` (0 for `n = 0`). -/
def natLog2 (n : ℕ) : ℕ := log2Aux n n

/-- IEEE binary64 (Python float) rounding of a rational `p / q ≥ 1`: the pair
`(m, e)` with `2^52 ≤ m ≤ 2^53` whose value is `m * 2^e / 2^52` (round to
nearest, ties to even; normal range only — every value arising below is
normal and far from overflow). -/
def fl64 (p q : ℕ) : ℕ × ℕ :=
  let e := natLog2 (p / q)
  (rneDiv (p * 2 ^ 52) (q * 2 ^ e), e)

/-- The millisecond field `int((s % 1) * 1000)` that the source computes
under real IEEE binary64 arithmetic, where `s` is the double nearest to
`n / 1000` with `1000 ≤ n < 2000`.  In this range `s = m₀ / 2^52 ∈ [1, 2)`,
so Python's `s % 1` is the exact difference `s - 1` (Sterbenz: representable,
no rounding), the multiplication by 1000 rounds once to nearest-even, and
`int(·)` truncates toward zero.  (The final line needs the product to be
`≥ 1`; it is at the evaluation point `n = 1005`.) -/
def floatMillisField (n : ℕ) : ℕ :=
  let m0 := (fl64 n 1000).1
  let frac := m0 - 2 ^ 52
  let p := fl64 (frac * 1000) (2 ^ 52)
  p.1 * 2 ^ p.2 / 2 ^ 52

-- ===========================================================
-- Script parser (parse_srt)
-- ===========================================================

/-- `re.sub(r'<[^>]+>', '', ·)` and `re.sub(r'\x7b[^\x7d]+\x7d', '', ·)`:
repeatedly remove the leftmost match of `oc [^cc]+ cc`; an opening character
with no matching close (or an immediately following close) stays literal. -/
def stripTagsAux (oc cc : Char) : ℕ → List Char → List Char
  | 0, l => l
  | _, [] => []
  | fuel + 1, c :: rest =>
    if c = oc then
      let run := rest.takeWhile (fun x => x ≠ cc)
      if run = [] then c :: stripTagsAux oc cc fuel rest
      else
        match rest.drop run.length with
        | _ :: tail => stripTagsAux oc cc fuel tail
        | [] => c :: stripTagsAux oc cc fuel rest
    else c :: stripTagsAux oc cc fuel rest

/-- Top-level tag stripper: every step consumes at least one character, so the
fuel `l.length + 1` never runs out. -/
def stripTags (oc cc : Char) (l : List Char) : List Char :=
  stripTagsAux oc cc (l.length + 1) l

/-- Index (from the front) of the last `'\n'` in `l`; meaningful only when `l`
contains one. -/
def lastNlIdx (l : List Char) : ℕ :=
  l.length - 1 - l.reverse.findIdx (· = '\n')

/-- `re.split(r'\n\s*\n', ·)`: a separator is a leftmost match running from the
first newline of a whitespace run to the last newline reachable from it
(greedy `\s*`, then the final `\n` found by backtracking). -/
def splitBlocksAux : ℕ → List Char → List Char → List (List Char)
  | _, acc, [] => [acc.reverse]
  | 0, acc, l => [acc.reverse ++ l]
  | fuel + 1, acc, c :: rest =>
    if c = '\n' then
      let run := rest.takeWhile pyIsSpace
      if run.any (· = '\n') then
        acc.reverse ::
          splitBlocksAux fuel [] (run.drop (lastNlIdx run + 1) ++ rest.drop run.length)
      else splitBlocksAux fuel (c :: acc) rest
    else splitBlocksAux fuel (c :: acc) rest

/-- One subtitle cue: `start`/`end` in seconds, markup-stripped text.
(The source's `end` field is called `stop` here because `end` is reserved.) -/
structure SubtitleEntry where
  start : ℚ
  stop : ℚ
  text : String
deriving DecidableEq, Repr

/-- Scan a block's lines for the first one whose stripped form matches the
timestamp-range pattern; return its groups and the lines after it. -/
def findTs : List String → Option (((ℕ × ℕ × ℕ × ℕ) × (ℕ × ℕ × ℕ × ℕ)) × List String)
  | [] => none
  | l :: ls =>
    match matchTsRange (pyStrip l) with
    | some g => some (g, ls)
    | none => findTs ls

/-- Markup stripping of an entry text: angle-bracket tags, then brace override
tags, then `strip()` (lines 146–147). -/
def cleanEntryText (s : String) : String :=
  pyStrip (String.mk (stripTags '\x7b' '\x7d' (stripTags '<' '>' s.data)))

/-- One block's line list: `block.strip().split('\n')` (line 125). -/
def blockLines (block : String) : List String :=
  (splitChar (fun c => c = '\n') (pyStrip block).data).map String.mk

/-- Processing of one block (lines 125–149): skip blocks of fewer than two
lines, find the first timestamp line, join the following lines, strip markup,
drop the entry if the remaining text is empty. -/
def blockToEntry (block : String) : Option SubtitleEntry :=
  let lines := blockLines block
  if lines.length < 2 then none
  else
    match findTs lines with
    | none => none
    | some (g, after) =>
      let text := cleanEntryText (joinLines after)
      if text = "" then none
      else some ⟨tsValue g.1, tsValue g.2, text⟩

/-- Whether some line of a block matches the timestamp-range pattern. -/
def hasTsLine (block : String) : Bool :=
  (blockLines block).any (fun l => (matchTsRange (pyStrip l)).isSome)

/-- The entry text the parser extracts from a block: the lines after the first
timestamp line, joined, markup-stripped and trimmed (empty when the block has
no timestamp line). -/
def extractText (block : String) : String :=
  match findTs (blockLines block) with
  | some (_, after) => cleanEntryText (joinLines after)
  | none => ""

/-- BOM removal and line-ending normalisation (lines 118–121). -/
def normalizeContent (s : String) : String :=
  pyReplace (pyReplace (pyReplace s "﻿" "") "\r\n" "\n") "\r" "\n"

/-- Block segmentation: `re.split(r'\n\s*\n', content.strip())`. -/
def splitBlocks (s : String) : List String :=
  (splitBlocksAux ((pyStrip s).data.length + 1) [] (pyStrip s).data).map String.mk

/-- `parse_srt`, from decoded content to the ordered entry list.  (The
encoding-detection step maps raw bytes to a decoded string; it is modelled at
the orchestrator level as an environment-supplied decode.) -/
def parse_srt (content : String) : List SubtitleEntry :=
  (splitBlocks (normalizeContent content)).filterMap blockToEntry

-- ===========================================================
-- Language classifier and bilingual splitter
-- ===========================================================

/-- The CJK-associated codepoint ranges of `detect_language`. -/
def isCJKChar (c : Char) : Bool :=
  let cp := c.toNat
  (0x4E00 ≤ cp && cp ≤ 0x9FFF) || (0x3400 ≤ cp && cp ≤ 0x4DBF) ||
  (0xF900 ≤ cp && cp ≤ 0xFAFF) || (0x2E80 ≤ cp && cp ≤ 0x2EFF) ||
  (0x3000 ≤ cp && cp ≤ 0x303F) || (0xFF00 ≤ cp && cp ≤ 0xFFEF) ||
  (0xAC00 ≤ cp && cp ≤ 0xD7AF) || (0x3040 ≤ cp && cp ≤ 0x309F) ||
  (0x30A0 ≤ cp && cp ≤ 0x30FF)

/-- Number of CJK codepoints in a line. -/
def cjkCount (s : String) : ℕ := (s.data.filter isCJKChar).length

/-- Total number of codepoints in a line. -/
def totalCount (s : String) : ℕ := s.data.length

/-- `detect_language`: `"cjk"` when the CJK ratio strictly exceeds `0.2`,
else `"latin"`; the empty line is `"latin"`.  The comparison
`cjk / total > 0.2` is modelled exactly as `5 * cjk > total`. -/
def detect_language (text : String) : String :=
  if totalCount text = 0 then "latin"
  else if 5 * cjkCount text > totalCount text then "cjk" else "latin"

/-- `split_cjk_latin`: classify each stripped, non-blank line and bucket it,
preserving order; return the two newline-joined buckets. -/
def split_cjk_latin (text : String) : String × String :=
  let lines := (((splitChar (fun c => c = '\n') text.data).map String.mk).map pyStrip).filter
    (fun l => l ≠ "")
  (joinLines (lines.filter (fun l => detect_language l = "cjk")),
   joinLines (lines.filter (fun l => detect_language l ≠ "cjk")))

-- ===========================================================
-- Style layout and ASS generator (create_ass)
-- ===========================================================

/-- The layout record computed on lines 205–209 of `create_ass`. -/
structure AssLayout where
  cjkFs : ℤ
  latFs : ℤ
  mlr : ℤ
  cjkMv : ℤ
  engMv : ℤ
deriving DecidableEq, Repr

/-- Lines 205–209: `int()` on the non-negative products is `⌊·⌋`; the float
constants `0.052`, `0.038`, `0.06`, `0.015` are modelled as exact rationals. -/
def assLayout (w h : ℕ) (mv : ℚ) : AssLayout :=
  let cjkFs := max ⌊(h : ℚ) * (52 / 1000)⌋ 26
  let latFs := max ⌊(h : ℚ) * (38 / 1000)⌋ 20
  let mlr := ⌊(w : ℚ) * (6 / 100)⌋
  let cjkMv := ⌊(h : ℚ) * mv⌋
  ⟨cjkFs, latFs, mlr, cjkMv, cjkMv + cjkFs + ⌊(h : ℚ) * (15 / 1000)⌋⟩

/-- The script header emitted by `create_ass` (lines 211–238). -/
def assHeader (w h : ℕ) (mv : ℚ) : String :=
  let L := assLayout w h mv
  "[Script Info]\nScriptType: v4.00+\nPlayResX: " ++ toString w ++ "\nPlayResY: "
    ++ toString h ++ "\nWrapStyle: 0\nScaledBorderAndShadow: yes\n\n[V4+ Styles]\n"
    ++ "Format: Name, Fontname, Fontsize, PrimaryColour, SecondaryColour, "
    ++ "OutlineColour, BackColour, Bold, Italic, Underline, StrikeOut, ScaleX, ScaleY, "
    ++ "Spacing, Angle, BorderStyle, Outline, Shadow, Alignment, MarginL, MarginR, MarginV, Encoding\n"
    ++ "Style: Chinese,Arial Unicode MS," ++ toString L.cjkFs
    ++ ",&H00FFFFFF,&H000000FF,&H00000000,&H96000000,-1,0,0,0,100,100,0,0,1,3,1,2,"
    ++ toString L.mlr ++ "," ++ toString L.mlr ++ "," ++ toString L.cjkMv ++ ",1\n"
    ++ "Style: English,Arial," ++ toString L.latFs
    ++ ",&H00FFFFFF,&H000000FF,&H00000000,&H96000000,0,0,0,0,100,100,0,0,1,2,1,2,"
    ++ toString L.mlr ++ "," ++ toString L.mlr ++ "," ++ toString L.engMv ++ ",1\n\n"
    ++ "[Events]\nFormat: Layer, Start, End, Style, Name, MarginL, MarginR, MarginV, Effect, Text\n"

/-- One `Dialogue:` line as emitted by `create_ass`. -/
def dlgLine (style s en txt : String) : String :=
  "Dialogue: 0," ++ s ++ "," ++ en ++ "," ++ style ++ ",,0,0,0,,"
    ++ pyReplace txt "\n" "\\N" ++ "\n"

/-- The dialogue events contributed by one entry (loop body, lines 241–273):
both buckets, only the CJK bucket, or the English fallback (Latin bucket or
the entry's original text). -/
def dialogueEvents (e : SubtitleEntry) : List String :=
  let s := format_ass_time e.start
  let en := format_ass_time e.stop
  let p := split_cjk_latin e.text
  if p.1 ≠ "" ∧ p.2 ≠ "" then
    [dlgLine "Chinese" s en p.1, dlgLine "English" s en p.2]
  else if p.1 ≠ "" then [dlgLine "Chinese" s en p.1]
  else [dlgLine "English" s en (if p.2 ≠ "" then p.2 else e.text)]

/-- `create_ass`: parse, compute layout, emit header plus per-entry dialogue
events.  Returns the script text (the written file's contents) and the entry
count (the function's return value).  `margin_v_pct = None` defaults to the
module constant `CHINESE_MARGIN_V_PCT = 0.18`. -/
def create_ass (content : String) (w h : ℕ) (marginOpt : Option ℚ) : String × ℕ :=
  let entries := parse_srt content
  let mv := marginOpt.getD (18 / 100)
  (assHeader w h mv ++ String.join (entries.flatMap dialogueEvents), entries.length)

-- ===========================================================
-- Episode-name sanitiser (lines 490–491)
-- ===========================================================

/-- `re.sub(r'_+', '_', ·)`: collapse each underscore run to one underscore. -/
def collapseAux : ℕ → List Char → List Char
  | 0, l => l
  | _, [] => []
  | fuel + 1, c :: rest =>
    if c = '_' then '_' :: collapseAux fuel (rest.dropWhile (· = '_'))
    else c :: collapseAux fuel rest

/-- Top-level underscore-run collapser: every step consumes at least one
character, so the fuel `l.length + 1` never runs out. -/
def collapseUnderscores (l : List Char) : List Char :=
  collapseAux (l.length + 1) l

/-- The filesystem-unsafe character class `[<>:"/\\|?*]`. -/
def unsafeChar (c : Char) : Bool :=
  c = '<' || c = '>' || c = ':' || c = '\"' || c = '/' || c = '\\' ||
  c = '|' || c = '?' || c = '*'

/-- Lines 490–491: replace unsafe characters by `'_'`, collapse underscore
runs, strip leading/trailing underscores, fall back to `"episode"`. -/
def safeName (epName : String) : String :=
  let s1 := epName.data.map (fun c => if unsafeChar c then '_' else c)
  let s2 := String.mk (stripEnds (· = '_') (collapseUnderscores s1))
  if s2 = "" then "episode" else s2

-- ===========================================================
-- Merge orchestrator (process_episode)
-- ===========================================================

/-- Result of a completed external process (`subprocess.run`): exit status and
captured diagnostic stream. -/
structure ProcResult where
  returncode : ℤ
  stderr : String
deriving DecidableEq, Repr

/-- Outcome of invoking one merge strategy: a Python exception escaping the
strategy call, or its returned value (`none` models `run_ff` returning `None`
on timeout or error) together with the state of the strategy's output file. -/
inductive AttemptOutcome where
  | raise (msg : String)
  | ret (r : Option ProcResult) (outExists : Bool) (outSize : ℕ)
deriving DecidableEq, Repr

/-- The result dictionary returned by `process_episode`. -/
structure MergeResult where
  success : Bool
  output_bytes : Option (List ℕ)
  filename : Option String
  message : String
deriving DecidableEq, Repr

/-- One external-toolchain invocation made during a job: the `ffprobe` call of
`get_video_info`, the cached `ffmpeg -filters` query of `check_filters`, or a
merge-strategy `ffmpeg` run. -/
inductive ExtCall where
  | probe
  | filtersQuery
  | strategy (name : String)
deriving DecidableEq, Repr

/-- Everything a job learns from outside: the decoded subtitle text (the
encoding-detection step of `parse_srt` applied to the written bytes), the
filter capabilities, the per-strategy outcomes, and the final
`open(out_path,'rb').read()` of the accepted output (whose failure is the
body's only uncaught raise site).  Probe data (`get_video_info`) feeds only
the abstracted strategies and the progress log, so only its invocation is
recorded. -/
structure JobEnv where
  decodeSub : List ℕ → String
  filtersAss : Bool
  filtersSubtitles : Bool
  hard1 : AttemptOutcome
  hard2 : AttemptOutcome
  hard3 : AttemptOutcome
  softMkv : AttemptOutcome
  softMp4 : AttemptOutcome
  readOutput : Except String (List ℕ)

/-- `good(result, path)` (lines 337–343): non-`None` result, zero exit status,
existing output, size strictly above 10000 bytes. -/
def goodRes (r : Option ProcResult) (outExists : Bool) (outSize : ℕ) : Bool :=
  match r with
  | some pr => pr.returncode == 0 && outExists && decide (10000 < outSize)
  | none => false

/-- `result.stderr[-200:] if result and result.stderr else dflt`. -/
def errTail (r : Option ProcResult) (dflt : String) : String :=
  match r with
  | some pr => if pr.stderr = "" then dflt else pyTakeRight 200 pr.stderr
  | none => dflt

/-- The hard-mode strategy loop (lines 515–538): try each method in order,
stop at the first accepted result, remember the last diagnostic (an exception
inside a strategy is caught there and recorded).  Returns the success flag,
the final `last_err`, and the strategy invocations made. -/
def tryMethods : List (String × AttemptOutcome) → String → Bool × String × List ExtCall
  | [], lastErr => (false, lastErr, [])
  | (n, o) :: rest, lastErr =>
    match o with
    | .raise msg =>
      let t := tryMethods rest msg
      (t.1, t.2.1, .strategy n :: t.2.2)
    | .ret r outExists outSize =>
      if goodRes r outExists outSize then (true, lastErr, [.strategy n])
      else
        let t := tryMethods rest (errTail r "failed silently")
        (t.1, t.2.1, .strategy n :: t.2.2)

/-- The failure dictionary (`success=False`, no bytes, no filename). -/
def failRes (msg : String) : MergeResult := ⟨false, none, none, msg⟩

/-- The success message `f'Done! ({size_mb:.1f} MB)'`; the `{:.1f}` float
format is modelled by decimal truncation (nothing below depends on it beyond
non-emptiness). -/
def doneMsg (nbytes : ℕ) : String :=
  let d := nbytes * 10 / (1024 * 1024)
  "Done! (" ++ toString (d / 10) ++ "." ++ toString (d % 10) ++ " MB)"

/-- The `try:` body of `process_episode` (lines 453–609): write the payloads,
validate sizes, parse the subtitle, sanitise the name, probe and query
filters, run the mode's strategy chain, and read the accepted output.
`Except.error` is an exception escaping the body to the outer handler.  The
second component records the external invocations, in order.  File-path
plumbing (suffix computation, workspace paths) only names files inside the
scratch workspace and is elided. -/
def episodeBody (videoBytes srtBytes : List ℕ) (epName mergeType : String)
    (env : JobEnv) : Except (String × List ExtCall) (MergeResult × List ExtCall) :=
  if videoBytes.length < 1000 then
    .ok (failRes "Video file too small or corrupt", [])
  else if srtBytes.length < 5 then
    .ok (failRes "Subtitle file too small or corrupt", [])
  else
    let entries := parse_srt (env.decodeSub srtBytes)
    if entries.isEmpty then
      .ok (failRes "No subtitle entries found — check SRT format", [])
    else
      let safe := safeName epName
      let calls0 : List ExtCall := [.probe, .filtersQuery]
      if mergeType = "hard" then
        if env.filtersAss || env.filtersSubtitles then
          let t := tryMethods
            [("Dual-style ASS burn", env.hard1), ("Subtitles filter", env.hard2),
             ("FFmpeg ASS convert", env.hard3)] "No methods ran"
          if t.1 then
            match env.readOutput with
            | .ok bs =>
              .ok (⟨true, some bs, some (safe ++ ".mp4"), doneMsg bs.length⟩, calls0 ++ t.2.2)
            | .error e => .error (e, calls0 ++ t.2.2)
          else
            .ok (failRes ("All methods failed: " ++ pyTake 200 t.2.1), calls0 ++ t.2.2)
        else .ok (failRes "No subtitle filters available in FFmpeg", calls0)
      else
        let s1 : Bool × String :=
          match env.softMkv with
          | .raise msg => (false, msg)
          | .ret r outExists outSize =>
            if goodRes r outExists outSize then (true, "") else (false, errTail r "mkv failed")
        if s1.1 then
          match env.readOutput with
          | .ok bs =>
            .ok (⟨true, some bs, some (safe ++ ".mkv"), doneMsg bs.length⟩,
                 calls0 ++ [.strategy "soft mkv"])
          | .error e => .error (e, calls0 ++ [.strategy "soft mkv"])
        else
          let s2 : Bool × String :=
            match env.softMp4 with
            | .raise msg => (false, msg)
            | .ret r outExists outSize =>
              if goodRes r outExists outSize then (true, s1.2)
              else (false, errTail r "mp4 failed")
          let cs := calls0 ++ [.strategy "soft mkv", .strategy "soft mp4"]
          if s2.1 then
            match env.readOutput with
            | .ok bs => .ok (⟨true, some bs, some (safe ++ ".mp4"), doneMsg bs.length⟩, cs)
            | .error e => .error (e, cs)
          else .ok (failRes ("Soft-sub failed: " ++ pyTake 200 s2.2), cs)

/-- `shutil.rmtree(job_dir, ignore_errors=True)` (line 619) applied to the
workspace-existence flag. -/
def rmtreeWorkspace (_ : Bool) : Bool := false

/-- `process_episode` (lines 445–619): create the workspace, run the body,
convert any escaped exception into a failure result (lines 611–617), and
remove the workspace unconditionally in the `finally` block.  Returns the
result, whether the scratch workspace still exists on return, and the
external invocations made. -/
def process_episode (videoBytes srtBytes : List ℕ) (epName mergeType : String)
    (env : JobEnv) : MergeResult × Bool × List ExtCall :=
  let jobDirExists := true
  match episodeBody videoBytes srtBytes epName mergeType env with
  | .ok (r, cs) => (r, rmtreeWorkspace jobDirExists, cs)
  | .error (e, cs) => (failRes e, rmtreeWorkspace jobDirExists, cs)

-- ===========================================================
-- Claim theorems
-- ===========================================================

/-- Floor of `n * (a / b)` over `ℚ` is the scaled natural division. -/
theorem floor_natMul_ratio (n a b : ℕ) :
    ⌊(n : ℚ) * ((a : ℚ) / (b : ℚ))⌋ = ((n * a / b : ℕ) : ℤ) := by
  have h : (n : ℚ) * ((a : ℚ) / (b : ℚ)) = ((n * a : ℕ) : ℚ) / (b : ℚ) := by
    push_cast
    ring
  rw [h, floor_natCast_div]

/-- C2 counterexample: the claim asserts round-to-nearest layout formulas, but
at `h = 1010` the code computes `cjkFontSize = 52` (`int(1010 * 0.052)`
truncates `52.52`) while `max(round(1010 * 0.052), 26) = 53`. -/
theorem assLayout_cjkFs_not_round :
    ¬ ((assLayout 1010 1010 (18 / 100)).cjkFs
        = max (round ((1010 : ℚ) * (52 / 1000))) 26) := by
  have ha : (assLayout 1010 1010 (18 / 100)).cjkFs = 52 := by
    have e52 : ⌊(1010 : ℚ) * (52 / 1000)⌋ = 52 := by
      rw [Int.floor_eq_iff]
      norm_num
    unfold assLayout
    dsimp only
    push_cast
    rw [e52]
    decide
  have hb : round ((1010 : ℚ) * (52 / 1000)) = 53 := by
    rw [round_eq, Int.floor_eq_iff]
    norm_num
  rw [ha, hb]
  decide

/-- C2 (amended): the layout values of the ASS generator equal the spec
formulas with truncation (floor) in place of rounding to nearest:
`cjkFontSize = max(⌊h*0.052⌋, 26)`, `latinFontSize = max(⌊h*0.038⌋, 20)`,
`sideMargin = ⌊w*0.06⌋`, `cjkVerticalMargin = ⌊h*mv⌋`, and the Latin vertical
margin adds `⌊h*0.015⌋` as the gap term on top of the CJK margin and the CJK
font size. -/
theorem assLayout_formulas (w h : ℕ) (mv : ℚ) :
    (assLayout w h mv).cjkFs = ((max (h * 52 / 1000) 26 : ℕ) : ℤ) ∧
    (assLayout w h mv).latFs = ((max (h * 38 / 1000) 20 : ℕ) : ℤ) ∧
    (assLayout w h mv).mlr = ((w * 6 / 100 : ℕ) : ℤ) ∧
    (assLayout w h mv).cjkMv = ⌊(h : ℚ) * mv⌋ ∧
    (assLayout w h mv).engMv
      = (assLayout w h mv).cjkMv + (assLayout w h mv).cjkFs
        + ((h * 15 / 1000 : ℕ) : ℤ) := by
  have e52 : ⌊(h : ℚ) * (52 / 1000)⌋ = ((h * 52 / 1000 : ℕ) : ℤ) := by
    have hx := floor_natMul_ratio h 52 1000
    push_cast at hx
    exact hx
  have e38 : ⌊(h : ℚ) * (38 / 1000)⌋ = ((h * 38 / 1000 : ℕ) : ℤ) := by
    have hx := floor_natMul_ratio h 38 1000
    push_cast at hx
    exact hx
  have e15 : ⌊(h : ℚ) * (15 / 1000)⌋ = ((h * 15 / 1000 : ℕ) : ℤ) := by
    have hx := floor_natMul_ratio h 15 1000
    push_cast at hx
    exact hx
  have e6 : ⌊(w : ℚ) * (6 / 100)⌋ = ((w * 6 / 100 : ℕ) : ℤ) := by
    have hx := floor_natMul_ratio w 6 100
    push_cast at hx
    exact hx
  unfold assLayout
  dsimp only
  refine ⟨?_, ?_, e6, rfl, ?_⟩
  · rw [e52, Nat.cast_max]
    norm_num
  · rw [e38, Nat.cast_max]
    norm_num
  · rw [e15]

/-- C3: the classifier returns `"cjk"` exactly when the CJK ratio strictly
exceeds `0.2`; a line that is exactly 20% CJK classifies as `"latin"`, and the
empty line classifies as `"latin"`. -/
theorem detect_language_threshold :
    (∀ t : String, detect_language t = "cjk" ↔
      (totalCount t ≠ 0 ∧ (1 : ℚ) / 5 < (cjkCount t : ℚ) / (totalCount t : ℚ))) ∧
    (∀ t : String, 5 * cjkCount t = totalCount t → detect_language t = "latin") ∧
    detect_language "" = "latin" := by
  have hiff : ∀ t : String, detect_language t = "cjk" ↔
      (totalCount t ≠ 0 ∧ (1 : ℚ) / 5 < (cjkCount t : ℚ) / (totalCount t : ℚ)) := by
    intro t
    unfold detect_language
    by_cases h0 : totalCount t = 0
    · rw [if_pos h0]
      constructor
      · intro h
        exact absurd h (by decide)
      · rintro ⟨hne, _⟩
        exact absurd h0 hne
    · have hpos : (0 : ℚ) < (totalCount t : ℚ) := by
        exact_mod_cast Nat.pos_of_ne_zero h0
      have hratio : ((1 : ℚ) / 5 < (cjkCount t : ℚ) / (totalCount t : ℚ))
          ↔ totalCount t < 5 * cjkCount t := by
        rw [div_lt_div_iff₀ (by norm_num) hpos]
        constructor
        · intro hlt
          have hq : (totalCount t : ℚ) < 5 * (cjkCount t : ℚ) := by linarith
          exact_mod_cast hq
        · intro hlt
          have hq : (totalCount t : ℚ) < 5 * (cjkCount t : ℚ) := by exact_mod_cast hlt
          linarith
      rw [if_neg h0]
      by_cases hgt : totalCount t < 5 * cjkCount t
      · rw [if_pos (show 5 * cjkCount t > totalCount t from hgt)]
        constructor
        · intro _
          exact ⟨h0, hratio.mpr hgt⟩
        · intro _
          rfl
      · rw [if_neg (show ¬ (5 * cjkCount t > totalCount t) from hgt)]
        constructor
        · intro h
          exact absurd h (by decide)
        · rintro ⟨_, hr⟩
          exact absurd (hratio.mp hr) hgt
  refine ⟨hiff, ?_, by decide⟩
  intro t heq
  unfold detect_language
  by_cases h0 : totalCount t = 0
  · rw [if_pos h0]
  · have hn : ¬ (5 * cjkCount t > totalCount t) := by omega
    rw [if_neg h0, if_neg hn]

/-- Witness for C3: `"abcd一"` is exactly 20% CJK and classifies `"latin"`. -/
theorem detect_language_threshold_witness :
    5 * cjkCount "abcd一" = totalCount "abcd一" ∧ detect_language "abcd一" = "latin" :=
  ⟨by decide, detect_language_threshold.2.1 "abcd一" (by decide)⟩

/-- C5: for positive resolution and margin fraction in `[0.05, 0.45]`, the
Latin vertical margin strictly exceeds the CJK vertical margin and both are
non-negative integers. -/
theorem assLayout_margin_invariant (w h : ℕ) (mv : ℚ) (hw : 0 < w) (hh : 0 < h)
    (hmv1 : 1 / 20 ≤ mv) (hmv2 : mv ≤ 9 / 20) :
    (assLayout w h mv).cjkMv < (assLayout w h mv).engMv ∧
    0 ≤ (assLayout w h mv).cjkMv ∧ 0 ≤ (assLayout w h mv).engMv := by
  unfold assLayout
  simp only
  have hcjkMv : (0 : ℤ) ≤ ⌊(h : ℚ) * mv⌋ := by
    apply Int.floor_nonneg.mpr
    apply mul_nonneg (by positivity)
    linarith
  have hfs : (26 : ℤ) ≤ max ⌊(h : ℚ) * (52 / 1000)⌋ 26 := le_max_right _ _
  have hgap : (0 : ℤ) ≤ ⌊(h : ℚ) * (15 / 1000)⌋ := by
    apply Int.floor_nonneg.mpr
    positivity
  refine ⟨by omega, hcjkMv, by omega⟩

/-- Witness for C5 at 1920×1080 with the default margin fraction 0.18. -/
theorem assLayout_margin_invariant_witness :
    (assLayout 1920 1080 (18 / 100)).cjkMv < (assLayout 1920 1080 (18 / 100)).engMv ∧
    0 ≤ (assLayout 1920 1080 (18 / 100)).cjkMv ∧
    0 ≤ (assLayout 1920 1080 (18 / 100)).engMv :=
  assLayout_margin_invariant 1920 1080 (18 / 100) (by norm_num) (by norm_num)
    (by norm_num) (by norm_num)

/-- C4: the ASS generator's returned entry count equals the parsed script's
length, the emitted text is the header followed by every parsed entry's
dialogue events in order, and each entry's events are: two (Chinese then
English) when both buckets are non-empty, one on the matching style when
exactly one bucket is non-empty, and one English fallback carrying the entry's
original text when both buckets are empty — so no entry yields zero events. -/
theorem create_ass_completeness (content : String) (w h : ℕ) (mv : ℚ) :
    (create_ass content w h (some mv)).2 = (parse_srt content).length ∧
    (create_ass content w h (some mv)).1
      = assHeader w h mv ++ String.join ((parse_srt content).flatMap dialogueEvents) ∧
    ∀ e : SubtitleEntry,
      dialogueEvents e ≠ [] ∧
      ((split_cjk_latin e.text).1 ≠ "" → (split_cjk_latin e.text).2 ≠ "" →
        dialogueEvents e
          = [dlgLine "Chinese" (format_ass_time e.start) (format_ass_time e.stop)
               (split_cjk_latin e.text).1,
             dlgLine "English" (format_ass_time e.start) (format_ass_time e.stop)
               (split_cjk_latin e.text).2]) ∧
      ((split_cjk_latin e.text).1 ≠ "" → (split_cjk_latin e.text).2 = "" →
        dialogueEvents e
          = [dlgLine "Chinese" (format_ass_time e.start) (format_ass_time e.stop)
               (split_cjk_latin e.text).1]) ∧
      ((split_cjk_latin e.text).1 = "" → (split_cjk_latin e.text).2 ≠ "" →
        dialogueEvents e
          = [dlgLine "English" (format_ass_time e.start) (format_ass_time e.stop)
               (split_cjk_latin e.text).2]) ∧
      ((split_cjk_latin e.text).1 = "" → (split_cjk_latin e.text).2 = "" →
        dialogueEvents e
          = [dlgLine "English" (format_ass_time e.start) (format_ass_time e.stop)
               e.text]) := by
  refine ⟨rfl, rfl, ?_⟩
  intro e
  by_cases h1 : (split_cjk_latin e.text).1 = "" <;>
    by_cases h2 : (split_cjk_latin e.text).2 = "" <;>
      simp [dialogueEvents, h1, h2]

/-- Witness for C4 at a bilingual entry: both buckets non-empty. -/
theorem create_ass_completeness_witness :
    dialogueEvents ⟨1, 2, "你好\nHi"⟩
      = [dlgLine "Chinese" (format_ass_time (1 : ℚ)) (format_ass_time (2 : ℚ))
           (split_cjk_latin "你好\nHi").1,
         dlgLine "English" (format_ass_time (1 : ℚ)) (format_ass_time (2 : ℚ))
           (split_cjk_latin "你好\nHi").2] :=
  ((create_ass_completeness "" 1920 1080 (18 / 100)).2.2 ⟨1, 2, "你好\nHi"⟩).2.1
    (by decide) (by decide)

/-- `findTs` succeeds exactly when some line matches the pattern. -/
theorem findTs_isSome (ls : List String) :
    (findTs ls).isSome = ls.any (fun l => (matchTsRange (pyStrip l)).isSome) := by
  induction ls with
  | nil => rfl
  | cons l t ih =>
    cases hm : matchTsRange (pyStrip l) with
    | some g => simp [findTs, hm]
    | none => simp [findTs, hm, ih]

/-- `(l.filterMap f).length` counts the inputs on which `f` succeeds. -/
theorem length_filterMap_isSome {α β : Type} (f : α → Option β) (l : List α) :
    (l.filterMap f).length = (l.filter (fun a => (f a).isSome)).length := by
  induction l with
  | nil => rfl
  | cons a t ih =>
    cases hf : f a <;> simp [List.filterMap_cons, List.filter_cons, hf, ih]

/-- The per-block acceptance test of `parse_srt`: a block yields an entry
exactly when it has a timestamp line and its extracted text is non-empty
(a one-line block with a timestamp line has empty text, so the `len < 2`
short-cut of line 126 does not change the accepted set). -/
theorem blockToEntry_isSome (b : String) :
    (blockToEntry b).isSome = (hasTsLine b && (extractText b != "")) := by
  unfold blockToEntry hasTsLine extractText
  cases hls : blockLines b with
  | nil => simp [findTs]
  | cons l ls =>
    cases ls with
    | nil =>
      simp only [List.length_cons, List.length_nil]
      rw [if_pos (by omega)]
      cases hm : matchTsRange (pyStrip l) with
      | none => simp [findTs, hm]
      | some g =>
        have hfind : findTs [l] = some (g, []) := by
          simp [findTs, hm]
        have hclean : cleanEntryText (joinLines ([] : List String)) = "" := by decide
        rw [hfind]
        simp [hclean]
    | cons l2 ls2 =>
      rw [if_neg (by simp)]
      cases hf : findTs (l :: l2 :: ls2) with
      | none =>
        have hany := findTs_isSome (l :: l2 :: ls2)
        rw [hf] at hany
        simp at hany
        simp [hany]
      | some ga =>
        obtain ⟨g, after⟩ := ga
        have hany := findTs_isSome (l :: l2 :: ls2)
        rw [hf] at hany
        by_cases ht : cleanEntryText (joinLines after) = "" <;>
          simp [ht, ← hany]

/-- C6: the parser keeps exactly the blocks that contain a timestamp line and
whose extracted text is non-empty after markup stripping; the entries are the
accepted blocks' entries in original block order, and the entry count equals
the number of accepted blocks. -/
theorem parse_srt_block_filter (content : String) :
    parse_srt content = (splitBlocks (normalizeContent content)).filterMap blockToEntry ∧
    (∀ b : String, (blockToEntry b).isSome = (hasTsLine b && (extractText b != ""))) ∧
    (parse_srt content).length
      = ((splitBlocks (normalizeContent content)).filter
          (fun b => hasTsLine b && (extractText b != ""))).length := by
  refine ⟨rfl, blockToEntry_isSome, ?_⟩
  unfold parse_srt
  rw [length_filterMap_isSome]
  congr 1
  exact List.filter_congr (fun b _ => blockToEntry_isSome b)

/-- C7: undersized payloads and empty parses are rejected before any external
invocation: the job fails with the corresponding message, no output, and an
empty invocation trace. -/
theorem process_episode_validation (vb sb : List ℕ) (ep mt : String) (env : JobEnv) :
    (vb.length < 1000 →
      process_episode vb sb ep mt env
        = (failRes "Video file too small or corrupt", false, [])) ∧
    (1000 ≤ vb.length → sb.length < 5 →
      process_episode vb sb ep mt env
        = (failRes "Subtitle file too small or corrupt", false, [])) ∧
    (1000 ≤ vb.length → 5 ≤ sb.length → parse_srt (env.decodeSub sb) = [] →
      process_episode vb sb ep mt env
        = (failRes "No subtitle entries found — check SRT format", false, [])) := by
  refine ⟨?_, ?_, ?_⟩
  · intro h1
    unfold process_episode episodeBody
    rw [if_pos h1]
    rfl
  · intro h1 h2
    unfold process_episode episodeBody
    rw [if_neg (by omega), if_pos h2]
    rfl
  · intro h1 h2 h3
    unfold process_episode episodeBody
    rw [if_neg (by omega), if_neg (by omega)]
    dsimp only
    rw [h3]
    rfl

/-- Witness for C7: all three rejections at concrete payloads against a
concrete environment. -/
theorem process_episode_validation_witness :
    process_episode [] [] "ep" "hard"
        ⟨fun _ => "", false, false, .ret none false 0, .ret none false 0,
         .ret none false 0, .ret none false 0, .ret none false 0, .ok []⟩
      = (failRes "Video file too small or corrupt", false, []) ∧
    process_episode (List.replicate 1000 0) [] "ep" "hard"
        ⟨fun _ => "", false, false, .ret none false 0, .ret none false 0,
         .ret none false 0, .ret none false 0, .ret none false 0, .ok []⟩
      = (failRes "Subtitle file too small or corrupt", false, []) ∧
    process_episode (List.replicate 1000 0) [0, 0, 0, 0, 0] "ep" "soft"
        ⟨fun _ => "", false, false, .ret none false 0, .ret none false 0,
         .ret none false 0, .ret none false 0, .ret none false 0, .ok []⟩
      = (failRes "No subtitle entries found — check SRT format", false, []) :=
  ⟨(process_episode_validation [] [] "ep" "hard" _).1 (by decide),
   (process_episode_validation (List.replicate 1000 0) [] "ep" "hard" _).2.1
     (by rw [List.length_replicate]) (by decide),
   (process_episode_validation (List.replicate 1000 0) [0, 0, 0, 0, 0] "ep" "soft" _).2.2
     (by rw [List.length_replicate]) (by decide) (by decide)⟩

/-- C8: the scratch workspace never survives `process_episode`: the `finally`
block removes it on every path — success, validation failure, strategy
exhaustion, and an exception escaping the body. -/
theorem process_episode_workspace_cleanup (vb sb : List ℕ) (ep mt : String)
    (env : JobEnv) : (process_episode vb sb ep mt env).2.1 = false := by
  unfold process_episode
  rcases episodeBody vb sb ep mt env with ⟨e, cs⟩ | ⟨r, cs⟩ <;> rfl

/-- A string with a non-empty left part is non-empty. -/
theorem append_ne_empty (s t : String) (hs : s ≠ "") : s ++ t ≠ "" := by
  intro h
  apply hs
  have hd := congrArg String.data h
  rw [String.data_append] at hd
  have hs' : s.data = [] := (List.append_eq_nil.mp hd).1
  cases s with
  | mk d =>
    cases hs'
    rfl

/-- Shape of every body outcome: an `ok` result is either a failure value with
no output and a non-empty message, or a success value carrying the read output
blob and a filename; an `error` outcome is exactly a failed final read. -/
theorem episodeBody_shape (vb sb : List ℕ) (ep mt : String) (env : JobEnv) :
    (∀ r cs, episodeBody vb sb ep mt env = Except.ok (r, cs) →
      (r.success = false ∧ r.output_bytes = none ∧ r.filename = none ∧ r.message ≠ "") ∨
      (r.success = true ∧ (∃ bs, env.readOutput = Except.ok bs ∧ r.output_bytes = some bs)
        ∧ r.filename.isSome = true)) ∧
    (∀ e cs, episodeBody vb sb ep mt env = Except.error (e, cs) →
      env.readOutput = Except.error e) := by
  constructor
  · intro r cs hr
    unfold episodeBody at hr
    dsimp only at hr
    repeat' split at hr
    all_goals
      first
      | exact Except.noConfusion hr
      | (simp only [Except.ok.injEq, Prod.mk.injEq] at hr
         obtain ⟨rfl, rfl⟩ := hr
         first
         | exact Or.inl ⟨rfl, rfl, rfl, by decide⟩
         | exact Or.inl ⟨rfl, rfl, rfl, append_ne_empty _ _ (by decide)⟩
         | exact Or.inr ⟨rfl, ⟨_, by assumption, rfl⟩, rfl⟩)
  · intro e cs hr
    unfold episodeBody at hr
    dsimp only at hr
    repeat' split at hr
    all_goals
      first
      | exact Except.noConfusion hr
      | (simp only [Except.error.injEq, Prod.mk.injEq] at hr
         obtain ⟨rfl, rfl⟩ := hr
         assumption)

/-- C9 (amended): no exception reaches the caller — `process_episode` is a
total function into `MergeResult`; a failure carries no output bytes and no
filename, and its message is non-empty or is, verbatim, the text of the
internal exception that escaped to the job-boundary handler (which `str(ex)`
does not guarantee non-empty — see `process_episode_empty_message`); a
success carries the full output blob read from the workspace plus a
filename. -/
theorem process_episode_result_shape (vb sb : List ℕ) (ep mt : String) (env : JobEnv) :
    ((process_episode vb sb ep mt env).1.success = false →
      (process_episode vb sb ep mt env).1.output_bytes = none ∧
      (process_episode vb sb ep mt env).1.filename = none ∧
      ((process_episode vb sb ep mt env).1.message ≠ "" ∨
        env.readOutput = Except.error (process_episode vb sb ep mt env).1.message)) ∧
    ((process_episode vb sb ep mt env).1.success = true →
      (∃ bs, env.readOutput = Except.ok bs ∧
        (process_episode vb sb ep mt env).1.output_bytes = some bs) ∧
      (process_episode vb sb ep mt env).1.filename.isSome = true) := by
  have hshape := episodeBody_shape vb sb ep mt env
  unfold process_episode
  cases hb : episodeBody vb sb ep mt env with
  | ok p =>
    obtain ⟨r, cs⟩ := p
    have hcase := hshape.1 r cs hb
    dsimp only
    rcases hcase with ⟨hs, ho, hf, hm⟩ | ⟨hs, hbs, hf⟩
    · constructor
      · intro _
        exact ⟨ho, hf, Or.inl hm⟩
      · intro htrue
        rw [hs] at htrue
        exact absurd htrue (by simp)
    · constructor
      · intro hfalse
        rw [hs] at hfalse
        exact absurd hfalse (by simp)
      · intro _
        exact ⟨hbs, hf⟩
  | error p =>
    obtain ⟨e, cs⟩ := p
    have hre := hshape.2 e cs hb
    dsimp only
    constructor
    · intro _
      exact ⟨rfl, rfl, Or.inr hre⟩
    · intro htrue
      exact absurd htrue (by simp [failRes])

/-- Witness for C9 against a concrete environment whose final read succeeds. -/
theorem process_episode_result_shape_witness :
    ((process_episode (List.replicate 1000 0) [0, 0, 0, 0, 0] "ep" "soft"
        ⟨fun _ => "x", true, true, .ret none false 0, .ret none false 0,
         .ret none false 0, .ret none false 0, .ret none false 0,
         .ok [7]⟩).1.success = false →
      (process_episode (List.replicate 1000 0) [0, 0, 0, 0, 0] "ep" "soft"
        ⟨fun _ => "x", true, true, .ret none false 0, .ret none false 0,
         .ret none false 0, .ret none false 0, .ret none false 0,
         .ok [7]⟩).1.output_bytes = none ∧
      (process_episode (List.replicate 1000 0) [0, 0, 0, 0, 0] "ep" "soft"
        ⟨fun _ => "x", true, true, .ret none false 0, .ret none false 0,
         .ret none false 0, .ret none false 0, .ret none false 0,
         .ok [7]⟩).1.filename = none ∧
      ((process_episode (List.replicate 1000 0) [0, 0, 0, 0, 0] "ep" "soft"
        ⟨fun _ => "x", true, true, .ret none false 0, .ret none false 0,
         .ret none false 0, .ret none false 0, .ret none false 0,
         .ok [7]⟩).1.message ≠ "" ∨
       (⟨fun _ => "x", true, true, .ret none false 0, .ret none false 0,
         .ret none false 0, .ret none false 0, .ret none false 0,
         .ok [7]⟩ : JobEnv).readOutput
         = Except.error (process_episode (List.replicate 1000 0) [0, 0, 0, 0, 0] "ep" "soft"
        ⟨fun _ => "x", true, true, .ret none false 0, .ret none false 0,
         .ret none false 0, .ret none false 0, .ret none false 0,
         .ok [7]⟩).1.message)) ∧
    ((process_episode (List.replicate 1000 0) [0, 0, 0, 0, 0] "ep" "soft"
        ⟨fun _ => "x", true, true, .ret none false 0, .ret none false 0,
         .ret none false 0, .ret none false 0, .ret none false 0,
         .ok [7]⟩).1.success = true →
      (∃ bs, (⟨fun _ => "x", true, true, .ret none false 0, .ret none false 0,
         .ret none false 0, .ret none false 0, .ret none false 0,
         .ok [7]⟩ : JobEnv).readOutput = Except.ok bs ∧
        (process_episode (List.replicate 1000 0) [0, 0, 0, 0, 0] "ep" "soft"
        ⟨fun _ => "x", true, true, .ret none false 0, .ret none false 0,
         .ret none false 0, .ret none false 0, .ret none false 0,
         .ok [7]⟩).1.output_bytes = some bs) ∧
      (process_episode (List.replicate 1000 0) [0, 0, 0, 0, 0] "ep" "soft"
        ⟨fun _ => "x", true, true, .ret none false 0, .ret none false 0,
         .ret none false 0, .ret none false 0, .ret none false 0,
         .ok [7]⟩).1.filename.isSome = true) :=
  process_episode_result_shape (List.replicate 1000 0) [0, 0, 0, 0, 0] "ep" "soft" _

/-- The head of `dropWhile p` never satisfies `p`. -/
theorem head_dropWhile_false (p : Char → Bool) :
    ∀ (l : List Char) (c : Char), (l.dropWhile p).head? = some c → p c = false := by
  intro l
  induction l with
  | nil =>
    intro c h
    exact absurd h (by simp)
  | cons a t ih =>
    intro c h
    by_cases hpa : p a = true
    · rw [List.dropWhile_cons, if_pos hpa] at h
      exact ih c h
    · rw [List.dropWhile_cons, if_neg hpa] at h
      rw [List.head?_cons] at h
      obtain rfl : a = c := Option.some.inj h
      simpa using hpa

/-- `getLast?` is unchanged by `dropWhile` when the result is non-empty. -/
theorem getLast?_dropWhile (p : Char → Bool) (l : List Char)
    (h : l.dropWhile p ≠ []) : (l.dropWhile p).getLast? = l.getLast? := by
  obtain ⟨s, hs⟩ := List.dropWhile_suffix (l := l) p
  conv_rhs => rw [← hs]
  exact (List.getLast?_append_of_ne_nil _ h).symm

/-- `collapseAux` keeps the head of the list. -/
theorem collapseAux_head (fuel : ℕ) (l : List Char) :
    (collapseAux fuel l).head? = l.head? := by
  cases fuel with
  | zero => cases l <;> rfl
  | succ f =>
    cases l with
    | nil => rfl
    | cons c rest =>
      by_cases hc : c = '_' <;> simp [collapseAux, hc]

/-- After collapsing, no two adjacent characters are both underscores. -/
theorem collapseAux_chain (fuel : ℕ) :
    ∀ l : List Char, l.length < fuel →
      List.Chain' (fun a b => a ≠ '_' ∨ b ≠ '_') (collapseAux fuel l) := by
  induction fuel with
  | zero =>
    intro l h
    exact absurd h (Nat.not_lt_zero _)
  | succ f ih =>
    intro l hlen
    cases l with
    | nil => simp [collapseAux]
    | cons c rest =>
      by_cases hc : c = '_'
      · subst hc
        have hstep : collapseAux (f + 1) ('_' :: rest)
            = '_' :: collapseAux f (rest.dropWhile (· = '_')) := by
          simp [collapseAux]
        rw [hstep, List.chain'_cons']
        constructor
        · intro y hy
          rw [collapseAux_head] at hy
          right
          intro hy'
          subst hy'
          have hfalse := head_dropWhile_false (· = '_') rest '_' hy
          simp at hfalse
        · apply ih
          have hle := (rest.dropWhile_sublist (· = '_')).length_le
          simp only [List.length_cons] at hlen
          omega
      · have hstep : collapseAux (f + 1) (c :: rest) = c :: collapseAux f rest := by
          simp [collapseAux, hc]
        rw [hstep, List.chain'_cons']
        refine ⟨fun y _ => Or.inl hc, ?_⟩
        apply ih
        simp only [List.length_cons] at hlen
        omega

/-- `collapseAux` only keeps characters of its input. -/
theorem collapseAux_subset (fuel : ℕ) :
    ∀ l c, c ∈ collapseAux fuel l → c ∈ l := by
  induction fuel with
  | zero =>
    intro l c h
    cases l with
    | nil => exact h
    | cons a rest => exact h
  | succ f ih =>
    intro l c h
    cases l with
    | nil => simpa [collapseAux] using h
    | cons a rest =>
      by_cases ha : a = '_'
      · subst ha
        rw [show collapseAux (f + 1) ('_' :: rest)
            = '_' :: collapseAux f (rest.dropWhile (· = '_')) from by simp [collapseAux]] at h
        rcases List.mem_cons.mp h with rfl | hmem
        · exact List.mem_cons_self _ _
        · exact List.mem_cons_of_mem _
            ((rest.dropWhile_sublist (· = '_')).subset (ih _ c hmem))
      · rw [show collapseAux (f + 1) (a :: rest) = a :: collapseAux f rest from by
            simp [collapseAux, ha]] at h
        rcases List.mem_cons.mp h with rfl | hmem
        · exact List.mem_cons_self _ _
        · exact List.mem_cons_of_mem _ (ih _ c hmem)

/-- `stripEnds` only keeps characters of its input. -/
theorem stripEnds_subset (p : Char → Bool) (l : List Char) :
    ∀ c, c ∈ stripEnds p l → c ∈ l := by
  intro c hc
  unfold stripEnds at hc
  rw [List.mem_reverse] at hc
  have h1 := ((l.dropWhile p).reverse.dropWhile_sublist p).subset hc
  rw [List.mem_reverse] at h1
  exact (l.dropWhile_sublist p).subset h1

/-- `stripEnds` preserves adjacency constraints. -/
theorem stripEnds_chain (p : Char → Bool) (P : Char → Char → Prop) (l : List Char)
    (h : List.Chain' P l) : List.Chain' P (stripEnds p l) := by
  unfold stripEnds
  have h1 : List.Chain' P (l.dropWhile p) := h.suffix (List.dropWhile_suffix p)
  have h2 : List.Chain' (flip P) (l.dropWhile p).reverse := List.chain'_reverse.mpr h1
  have h3 : List.Chain' (flip P) ((l.dropWhile p).reverse.dropWhile p) :=
    h2.suffix (List.dropWhile_suffix p)
  exact List.chain'_reverse.mpr h3

/-- The first character of `stripEnds p l` never satisfies `p`. -/
theorem stripEnds_head (p : Char → Bool) (l : List Char) (c : Char)
    (h : (stripEnds p l).head? = some c) : p c = false := by
  unfold stripEnds at h
  rw [List.head?_reverse] at h
  have hne : (l.dropWhile p).reverse.dropWhile p ≠ [] := by
    intro h0
    rw [h0] at h
    exact absurd h (by simp)
  rw [getLast?_dropWhile p _ hne, List.getLast?_reverse] at h
  exact head_dropWhile_false p l c h

/-- The last character of `stripEnds p l` never satisfies `p`. -/
theorem stripEnds_last (p : Char → Bool) (l : List Char) (c : Char)
    (h : (stripEnds p l).getLast? = some c) : p c = false := by
  unfold stripEnds at h
  rw [List.getLast?_reverse] at h
  exact head_dropWhile_false p _ c h

/-- C10: the sanitised episode base name is always non-empty; it contains no
filesystem-unsafe character, no two adjacent underscores (runs collapsed), and
neither starts nor ends with an underscore; the literal `"episode"` is used
when stripping empties the name. -/
theorem safeName_sanitized (name : String) :
    safeName name ≠ "" ∧
    (∀ c ∈ (safeName name).data, unsafeChar c = false) ∧
    List.Chain' (fun a b => a ≠ '_' ∨ b ≠ '_') (safeName name).data ∧
    (safeName name).data.head? ≠ some '_' ∧
    (safeName name).data.getLast? ≠ some '_' := by
  unfold safeName
  dsimp only
  by_cases hempty :
      String.mk (stripEnds (· = '_')
        (collapseUnderscores (name.data.map (fun c => if unsafeChar c then '_' else c)))) = ""
  · rw [if_pos hempty]
    refine ⟨by decide, by decide, ?_, by decide, by decide⟩
    show List.Chain' _ ['e', 'p', 'i', 's', 'o', 'd', 'e']
    simp only [List.chain'_cons, List.chain'_singleton, and_true]
    decide
  · rw [if_neg hempty]
    refine ⟨hempty, ?_, ?_, ?_, ?_⟩
    · intro c hc
      have hc1 : c ∈ collapseUnderscores
          (name.data.map (fun c => if unsafeChar c then '_' else c)) :=
        stripEnds_subset _ _ c hc
      have hc2 : c ∈ name.data.map (fun c => if unsafeChar c then '_' else c) :=
        collapseAux_subset _ _ c hc1
      obtain ⟨x, _, hx⟩ := List.mem_map.mp hc2
      by_cases hux : unsafeChar x = true
      · rw [if_pos hux] at hx
        rw [← hx]
        decide
      · rw [if_neg hux] at hx
        rw [← hx]
        simpa using hux
    · exact stripEnds_chain _ _ _ (collapseAux_chain _ _ (by omega))
    · intro hh
      have hfalse := stripEnds_head (· = '_') _ '_' hh
      simp at hfalse
    · intro hh
      have hfalse := stripEnds_last (· = '_') _ '_' hh
      simp at hfalse

/-- Witness for C10: a name with an unsafe character; a surviving character is
never unsafe. -/
theorem safeName_sanitized_witness :
    safeName "a<b" ≠ "" ∧ unsafeChar 'a' = false :=
  ⟨(safeName_sanitized "a<b").1, (safeName_sanitized "a<b").2.1 'a' (by decide)⟩

/-- Characters printed by `pad2` for values below 100. -/
theorem pad2_data : ∀ a, a < 100 →
    (pad2 a).data = [Nat.digitChar (a / 10), Nat.digitChar (a % 10)] := by
  decide

set_option maxRecDepth 8000 in
/-- Characters printed by `pad3` for values below 1000. -/
theorem pad3_data : ∀ d, d < 1000 →
    (pad3 d).data
      = [Nat.digitChar (d / 100), Nat.digitChar (d / 10 % 10), Nat.digitChar (d % 10)] := by
  decide

/-- Decimal digit characters scan back to their values. -/
theorem digitChar_facts : ∀ k, k < 10 →
    (Nat.digitChar k).isDigit = true ∧ digitVal (Nat.digitChar k) = k := by
  decide

/-- `parse2` reads back what `pad2` printed. -/
theorem parse2_pad (a : ℕ) (ha : a < 100) (rest : List Char) :
    parse2 ((pad2 a).data ++ rest) = some (a, rest) := by
  rw [pad2_data a ha]
  have hd1 := digitChar_facts (a / 10) (by omega)
  have hd2 := digitChar_facts (a % 10) (by omega)
  have hx : digitVal (Nat.digitChar (a / 10)) * 10 + digitVal (Nat.digitChar (a % 10)) = a := by
    rw [hd1.2, hd2.2]
    omega
  simp [parse2, hd1.1, hd2.1, hx]

/-- `parse3` reads back what `pad3` printed. -/
theorem parse3_pad (d : ℕ) (hd : d < 1000) (rest : List Char) :
    parse3 ((pad3 d).data ++ rest) = some (d, rest) := by
  rw [pad3_data d hd]
  have hd1 := digitChar_facts (d / 100) (by omega)
  have hd2 := digitChar_facts (d / 10 % 10) (by omega)
  have hd3 := digitChar_facts (d % 10) (by omega)
  have hx : digitVal (Nat.digitChar (d / 100)) * 100
      + digitVal (Nat.digitChar (d / 10 % 10)) * 10 + digitVal (Nat.digitChar (d % 10)) = d := by
    rw [hd1.2, hd2.2, hd3.2]
    omega
  simp [parse3, hd1.1, hd2.1, hd3.1, hx]

/-- The timestamp scanner reads back a formatted `HH:MM:SS,mmm` exactly. -/
theorem tsHalf_format (a b c d : ℕ) (ha : a < 100) (hb : b < 100) (hc : c < 100)
    (hd : d < 1000) :
    tsHalf ((pad2 a ++ ":" ++ pad2 b ++ ":" ++ pad2 c ++ "," ++ pad3 d).data)
      = some ((a, b, c, d), []) := by
  have hdata : (pad2 a ++ ":" ++ pad2 b ++ ":" ++ pad2 c ++ "," ++ pad3 d).data
      = (pad2 a).data ++ (':' :: ((pad2 b).data ++ (':' :: ((pad2 c).data
          ++ (',' :: ((pad3 d).data ++ ([] : List Char))))))) := by
    simp [String.data_append]
  have hp3 : parse3 (pad3 d).data = some (d, []) := by
    have hx := parse3_pad d hd []
    rwa [List.append_nil] at hx
  rw [hdata]
  simp [tsHalf, parse2_pad a ha, parse2_pad b hb, parse2_pad c hc, hp3, expectChar]

/-- `padInt2` of a natural value is `pad2`. -/
theorem padInt2_natCast (k : ℕ) : padInt2 (k : ℤ) = pad2 k := by
  unfold padInt2
  rw [if_neg (not_lt.mpr (Int.natCast_nonneg k)), Int.toNat_natCast]

/-- `padInt3` of a natural value is `pad3`. -/
theorem padInt3_natCast (k : ℕ) : padInt3 (k : ℤ) = pad3 k := by
  unfold padInt3
  rw [if_neg (not_lt.mpr (Int.natCast_nonneg k)), Int.toNat_natCast]

/-- `format_srt_time` on an exact millisecond value prints the base-60/1000
decomposition of the millisecond count. -/
theorem format_srt_time_ofMillis (n : ℕ) :
    format_srt_time ((n : ℚ) / 1000)
      = pad2 (n / 3600000) ++ ":" ++ pad2 (n / 60000 % 60) ++ ":"
        ++ pad2 (n / 1000 % 60) ++ "," ++ pad3 (n % 1000) := by
  have hh : ⌊(n : ℚ) / 1000 / 3600⌋ = ((n / 3600000 : ℕ) : ℤ) := by
    have h1 : (n : ℚ) / 1000 / 3600 = (n : ℚ) / 3600000 := by
      rw [div_div]
      norm_num
    have h2 := floor_natCast_div n 3600000
    push_cast at h2
    rw [h1, h2]
    omega
  have hm3600 := pyMod_div1000 n 3600
  push_cast at hm3600
  norm_num at hm3600
  have hm : ⌊pyMod ((n : ℚ) / 1000) 3600 / 60⌋ = ((n / 60000 % 60 : ℕ) : ℤ) := by
    rw [hm3600]
    have h1 : ((n % 3600000 : ℕ) : ℚ) / 1000 / 60 = ((n % 3600000 : ℕ) : ℚ) / 60000 := by
      rw [div_div]
      norm_num
    have h2 := floor_natCast_div (n % 3600000) 60000
    push_cast at h2
    rw [h1, h2]
    omega
  have hsc : ⌊pyMod ((n : ℚ) / 1000) 60⌋ = ((n / 1000 % 60 : ℕ) : ℤ) := by
    have h60 := pyMod_div1000 n 60
    push_cast at h60
    norm_num at h60
    rw [h60]
    have h2 := floor_natCast_div (n % 60000) 1000
    push_cast at h2
    rw [h2]
    omega
  have hms : ⌊pyMod ((n : ℚ) / 1000) 1 * 1000⌋ = ((n % 1000 : ℕ) : ℤ) := by
    have h1 := pyMod_div1000 n 1
    push_cast at h1
    norm_num at h1
    rw [h1]
    have h2 : ((n % 1000 : ℕ) : ℚ) / 1000 * 1000 = ((n % 1000 : ℕ) : ℚ) := by
      field_simp
    rw [h2, Int.floor_natCast]
  unfold format_srt_time
  dsimp only
  rw [hh, hm, hsc, hms, padInt2_natCast, padInt2_natCast, padInt2_natCast, padInt3_natCast]

/-- The exact-arithmetic codec round-trips: decoding the timestamp produced
by the idealized `format_srt_time` with the parser's scanner and arithmetic
recovers every millisecond value within a day.  This is the intended field
arithmetic of the codec; the source's IEEE float implementation violates it
(see `srt_timestamp_roundtrip_float_bug`). -/
theorem srt_timestamp_roundtrip (n : ℕ) (hn : n < 86400000) :
    decodeSrtTimestamp (format_srt_time ((n : ℚ) / 1000)) = some ((n : ℚ) / 1000) := by
  rw [format_srt_time_ofMillis]
  unfold decodeSrtTimestamp
  rw [tsHalf_format (n / 3600000) (n / 60000 % 60) (n / 1000 % 60) (n % 1000)
    (by omega) (by omega) (by omega) (by omega)]
  simp only [Option.map_some']
  congr 1
  unfold tsValue
  dsimp only
  have hnat : 3600000 * (n / 3600000) + 60000 * (n / 60000 % 60)
      + 1000 * (n / 1000 % 60) + n % 1000 = n := by omega
  have hq := congrArg (fun x : ℕ => (x : ℚ)) hnat
  push_cast at hq
  linarith [hq]

/-- Concrete instance of the exact-arithmetic round-trip at 1.005 seconds —
precisely a value where the source's float arithmetic diverges from the
intended behaviour established here. -/
theorem srt_timestamp_roundtrip_witness :
    1005 < 86400000 ∧
    decodeSrtTimestamp (format_srt_time (((1005 : ℕ) : ℚ) / 1000))
      = some (((1005 : ℕ) : ℚ) / 1000) :=
  ⟨by decide, srt_timestamp_roundtrip 1005 (by decide)⟩

/-- C1: under real IEEE binary64 arithmetic the source prints millisecond
field `004` for x = 1.005: the double nearest to 1.005 lies strictly below
it, and the truncating `int((s % 1) * 1000)` drops the missing millisecond,
so the emitted `00:00:01,004` decodes — by the parser's own arithmetic
`tsValue` — to 1.004 ≠ 1.005.  The spec states the round-trip as a testable
property and the exact field decomposition is clearly the codec's intent
(it holds for exact arithmetic, `srt_timestamp_roundtrip`); the float
implementation is the slip. -/
theorem srt_timestamp_roundtrip_float_bug :
    floatMillisField 1005 = 4 ∧
    tsValue (0, 0, 1, floatMillisField 1005) ≠ ((1005 : ℕ) : ℚ) / 1000 := by
  have h4 : floatMillisField 1005 = 4 := by decide
  refine ⟨h4, ?_⟩
  rw [h4]
  unfold tsValue
  push_cast
  norm_num

set_option maxRecDepth 100000 in
/-- C9 counterexample: a reachable failure whose message is empty.  The soft
MKV strategy is accepted, the final `open(out_path, 'rb').read()` raises an
exception whose text is empty (e.g. `str(MemoryError())` is `""`), and the
outer handler at lines 611–617 returns `str(ex)` verbatim — so the job fails
with `success = False` and an empty message, refuting the claimed
universally non-empty failure message. -/
theorem process_episode_empty_message :
    (process_episode (List.replicate 1000 0) [0, 0, 0, 0, 0] "ep" "soft"
        ⟨fun _ => "1\n00:00:01,000 --> 00:00:02,000\nHi", true, true,
         .ret none false 0, .ret none false 0, .ret none false 0,
         .ret (some ⟨0, ""⟩) true 20000, .ret none false 0,
         .error ""⟩).1.success = false ∧
    (process_episode (List.replicate 1000 0) [0, 0, 0, 0, 0] "ep" "soft"
        ⟨fun _ => "1\n00:00:01,000 --> 00:00:02,000\nHi", true, true,
         .ret none false 0, .ret none false 0, .ret none false 0,
         .ret (some ⟨0, ""⟩) true 20000, .ret none false 0,
         .error ""⟩).1.message = "" ∧
    (process_episode (List.replicate 1000 0) [0, 0, 0, 0, 0] "ep" "soft"
        ⟨fun _ => "1\n00:00:01,000 --> 00:00:02,000\nHi", true, true,
         .ret none false 0, .ret none false 0, .ret none false 0,
         .ret (some ⟨0, ""⟩) true 20000, .ret none false 0,
         .error ""⟩).1.output_bytes = none := by
  refine ⟨?_, ?_, ?_⟩ <;> decide
